import Mathlib

/-!
Verification development for the scram probabilistic-risk-analysis core.

The definitions below are a shallow embedding of the C++ sources:

* `src/src/fault_tree_analysis.cc` — `Product::p`, `FaultTreeAnalysis::Store`;
* `src/src/parameter.h` — the `MissionTime` expression;
* `src/src/risk_analysis.cc` — the input-processing, definition and
  first-layer-validation logic of `RiskAnalysis`.

Modelling conventions: C++ `double` values are modelled as exact rationals
(`ℚ`); `std::string`/`boost::unordered_map` keyed containers are modelled as
association lists (`List (String × _)`, first match wins, as in the maps whose
keys are unique by construction); `boost::to_lower` is modelled as
ASCII case folding (`foldCase`); a C++ function that can throw
`ValidationError` is modelled as returning `Option VErr × RAState`, where the
error is produced before any state mutation, exactly as the throws in the
source precede all map insertions.
-/

namespace Scram

/-! ## Products and their probability (fault_tree_analysis.cc, lines 75-81)

A `Literal` is an event together with a complement flag; `literal.event.p()`
is embedded directly as the rational field `eventP`. -/

structure Literal where
  complement : Bool
  eventP : ℚ
deriving DecidableEq, Repr

abbrev Product := List Literal

/-- Embedding of `Product::p` (fault_tree_analysis.cc lines 75-81):
starts from `p = 1` and multiplies, for each literal, either
`1 - literal.event.p()` (complemented) or `literal.event.p()`. -/
def Product.p (prod : Product) : ℚ :=
  prod.foldl (fun acc l => acc * (if l.complement then 1 - l.eventP else l.eventP)) 1

/-! ## Product containers and `FaultTreeAnalysis::Store`
(fault_tree_analysis.cc, lines 88-106) -/

/-- A literal for product-set purposes: an event name with a complement flag. -/
structure Lit where
  var : String
  complement : Bool
deriving DecidableEq, BEq, Repr

/-- The set of products handed to `Store`, as computed by the Zbdd engine.
`Zbdd::empty()` means the empty family of products; `Zbdd::base()` means the
family containing exactly the empty product (the Unity set: `Print` asserts
that a container holding the empty product holds only it). -/
abbrev Zbdd := List (List Lit)

def Zbdd.emptySet (z : Zbdd) : Bool := z.isEmpty

def Zbdd.base (z : Zbdd) : Bool := z == [[]]

def nullWarning : String := "The top event is NULL. Success is guaranteed."

def unityWarning : String := "The top event is UNITY. Failure is guaranteed."

/-- Embedding of `FaultTreeAnalysis::Store` (fault_tree_analysis.cc lines
88-106).  The C++ function is `noexcept` and has no throwing path, which the
embedding reflects by always returning `Except.ok`: first the two special
cases add a warning (`Analysis::AddWarning`), then the product container is
stored unchanged. -/
def FaultTreeAnalysis.Store (products : Zbdd) (warnings : List String) :
    Except String (List String × Zbdd) :=
  let w :=
    if products.isEmpty then warnings ++ [nullWarning]
    else if products == [[]] then warnings ++ [unityWarning]
    else warnings
  Except.ok (w, products)

/-! ## MissionTime (parameter.h, lines 55-82) -/

/-- `Units` enum of parameter.h (lines 34-45). -/
inductive Units
  | unitless
  | bool
  | int
  | float
  | hours
  | inverseHours
  | years
  | inverseYears
  | fit
  | demands
deriving DecidableEq, Repr

structure MissionTime where
  unit : Units
  value : ℚ
deriving DecidableEq, Repr

/-- `MissionTime::Min` (parameter.h line 73): always `0`. -/
def MissionTime.Min (_ : MissionTime) : ℚ := 0

/-- `MissionTime::Mean` (parameter.h line 74): the stored value. -/
def MissionTime.Mean (m : MissionTime) : ℚ := m.value

/-- `MissionTime::IsDeviate` (parameter.h line 75): always `false`. -/
def MissionTime.IsDeviate (_ : MissionTime) : Bool := false

/-- `MissionTime::DoSample` (parameter.h line 78): the stored value. -/
def MissionTime.DoSample (m : MissionTime) : ℚ := m.value

/-- Per-trial sampling state of an expression (the `sampled_` flag and cached
`sampled_value_` of the base `Expression` class, which is not under src/). -/
structure SampleState where
  sampled : Bool
  sampledValue : ℚ
deriving DecidableEq, Repr

/-- Modelled from the spec: the base-class `Expression::Sample` wrapper is not
under src/; per the spec (§3, §4.A) `Sample()` is deterministic within a
trial, caching the value of the virtual `DoSample` the first time it is
called in a trial and returning the cached value afterwards.  `DoSample`
itself is taken from parameter.h line 78. -/
def MissionTime.Sample (m : MissionTime) (st : SampleState) : ℚ × SampleState :=
  if st.sampled then (st.sampledValue, st)
  else (m.DoSample, { sampled := true, sampledValue := m.DoSample })

/-- The value returned by the `(n+1)`-st consecutive call to `Sample`,
starting from sampling state `st`. -/
def MissionTime.sampleIter (m : MissionTime) : Nat → SampleState → ℚ × SampleState
  | 0, st => m.Sample st
  | n + 1, st => m.sampleIter n (m.Sample st).2

/-! ## The MCS product engine (spec §4.E)

Modelled from the spec: the Zbdd-based MCS engine that produces the product
sets consumed by `FaultTreeAnalysis::Store` is not under src/ (only the
`limit_order` assertion in `Store` is).  Per spec §4.E the engine propagates
product sets bottom-up over the normalized AND/OR/literal DAG: a literal
yields its singleton product, OR unions the children's sets, AND forms the
pairwise Cartesian union of literal sets, discarding products containing a
literal and its complement and products of size above the order limit, and
each combine is followed by minimalization. -/

inductive GNode
  | lit (l : Lit)
  | gand (a b : GNode)
  | gor (a b : GNode)
deriving DecidableEq, Repr

/-- A product is consistent when no literal occurs in both polarities. -/
def litConsistent (r : List Lit) : Bool :=
  r.all fun l => !(r.contains { var := l.var, complement := !l.complement })

/-- Union of two products as literal sets. -/
def unionLits (p q : List Lit) : List Lit :=
  p ++ q.filter fun l => !(p.contains l)

/-- Modelled from the spec: the AND combine of §4.E — pairwise Cartesian
product of the two product sets, discarding inconsistent products and
products with more than `limit` literals. -/
def combineProducts (limit : Nat) (ps qs : List (List Lit)) : List (List Lit) :=
  ((ps.map fun p => qs.map fun q => unionLits p q).flatten).filter
    fun r => litConsistent r && decide (r.length ≤ limit)

def subsetOf (p q : List Lit) : Bool := p.all fun l => q.contains l

def strictSubsetOf (p q : List Lit) : Bool := subsetOf p q && !(subsetOf q p)

/-- Modelled from the spec: minimalization (§4.E) — remove any product having
a strict subset in the set. -/
def minimize (ps : List (List Lit)) : List (List Lit) :=
  ps.filter fun p => !(ps.any fun q => strictSubsetOf q p)

/-- Modelled from the spec: bottom-up product propagation of the MCS engine
(§4.E) over the normalized DAG, with order limit `limit`. -/
def products (limit : Nat) : GNode → List (List Lit)
  | .lit l => [[l]]
  | .gor a b => minimize (products limit a ++ products limit b)
  | .gand a b => minimize (combineProducts limit (products limit a) (products limit b))

/-! ## RiskAnalysis state (risk_analysis.cc)

The builder state: `gates_`, `tbd_gates_`, `primary_events_`,
`basic_events_`, `tbd_basic_events_`, `tbd_house_events_`, `tbd_events_`,
`tbd_orig_ids_`, `parameters_`, `tbd_parameters_`, `fault_trees_`,
`ccf_groups_` and the `prob_requested_` flag.  Events are reduced to the data
the claims need: their display name (`orig_id`) and, for primary events,
whether they are basic or house.  Gate children are stored by id (the C++
`Gate::children()` map is keyed by child id); the `flavor` attribute of an
event, attached by `AttachLabelAndAttributes`, is modelled as a map from
event id to the attribute value. -/

/-- `boost::to_lower` on an id: ASCII case folding, character by character
(stated structurally over the string's character list so that it reduces on
concrete inputs). -/
def foldCase (s : String) : String := ⟨s.data.map Char.toLower⟩

structure GateE where
  origId : String
  gtype : String
  vote : Int
  children : List String
deriving DecidableEq, Repr

inductive PKind
  | basic
  | house
deriving DecidableEq, Repr

structure PrimE where
  origId : String
  kind : PKind
deriving DecidableEq, Repr

structure RAState where
  gates : List (String × GateE)
  tbd_gates : List (String × GateE)
  primary_events : List (String × PrimE)
  basic_events : List (String × String)
  tbd_basic_events : List (String × String)
  tbd_house_events : List (String × String)
  tbd_events : List (String × List String)
  tbd_orig_ids : List (String × String)
  parameters : List String
  tbd_parameters : List String
  fault_trees : List (String × String)
  ccf_groups : List (String × String)
  flavors : List (String × String)
  prob_requested : Bool
deriving DecidableEq, Repr

def emptyState : RAState :=
  { gates := [], tbd_gates := [], primary_events := [], basic_events := []
    tbd_basic_events := [], tbd_house_events := [], tbd_events := []
    tbd_orig_ids := [], parameters := [], tbd_parameters := []
    fault_trees := [], ccf_groups := [], flavors := [], prob_requested := false }

/-- The `ValidationError`s thrown by the definition functions, one
constructor per distinct message shape of risk_analysis.cc.  The spec's error
taxonomy maps "... is doubly defined" / "... is already defined" messages to
*DuplicateDefinition* and "... is already assigned to ..." / "... is already
used by ..." messages to *IdentifierConflict*. -/
inductive VErr
  | gateDoublyDefined (orig : String)
  | alreadyPrimary (orig : String)
  | unsupportedFormula (orig : String)
  | doublyDefined (orig : String)
  | alreadyGate (orig : String)
  | usedByHouse (orig : String)
  | usedByBasic (orig : String)
  | paramDoublyDefined (name : String)
  | ftDoublyDefined (name : String)
  | ccfDoublyDefined (name : String)
deriving DecidableEq, Repr

/-- Classification of the error messages by the spec's taxonomy:
`true` for the *IdentifierConflict* messages ("already assigned to a
gate/primary event", "already used by a house/basic event"), `false` for the
*DuplicateDefinition* messages ("doubly defined", "already defined"). -/
def VErr.isConflict : VErr → Bool
  | .alreadyPrimary _ => true
  | .alreadyGate _ => true
  | .usedByHouse _ => true
  | .usedByBasic _ => true
  | _ => false

/-- `Gate::AddChild`: children are kept in a map keyed by child id, so a
repeated insertion of the same id is a no-op. -/
def GateE.AddChild (g : GateE) (cid : String) : GateE :=
  if cid ∈ g.children then g else { g with children := g.children ++ [cid] }

/-- Add `cid` as a child of the gate stored under key `gid` (the entry keys
are untouched; only the stored gate object changes). -/
def addChildTo (gs : List (String × GateE)) (gid cid : String) :
    List (String × GateE) :=
  gs.map fun p => (p.1, if p.1 = gid then p.2.AddChild cid else p.2)

/-- Attach the event `e.1` as a child to every gate recorded in `e.2`
(the body of the `tbd_events_` loops of `ProcessInputFiles` and
`UpdateIfLateEvent`). -/
def resolveEntry (gs : List (String × GateE)) (e : String × List String) :
    List (String × GateE) :=
  e.2.foldl (fun acc gid => addChildTo acc gid e.1) gs

def resolveAll (gs : List (String × GateE)) (tbd : List (String × List String)) :
    List (String × GateE) :=
  tbd.foldl resolveEntry gs

/-- The display name recorded in `tbd_orig_ids_` for an unknown-kind
reference. -/
def origOf (s : RAState) (id : String) : String :=
  (s.tbd_orig_ids.lookup id).getD ""

/-- `RiskAnalysis::UpdateIfLateEvent` (risk_analysis.cc lines 952-967): if the
id was referenced with unknown kind, attach the now-created event to every
recorded requesting gate and erase the tbd entries. -/
def RiskAnalysis.UpdateIfLateEvent (s : RAState) (id : String) : RAState :=
  match s.tbd_events.lookup id with
  | some parents =>
    { s with
      gates := resolveEntry s.gates (id, parents)
      tbd_events := s.tbd_events.eraseP fun e => e.1 == id
      tbd_orig_ids := s.tbd_orig_ids.eraseP fun e => e.1 == id }
  | none => s

def validGateTypes : List String :=
  ["and", "or", "not", "nor", "nand", "xor", "null", "inhibit", "atleast"]

/-- `RiskAnalysis::DefineParameter` (risk_analysis.cc lines 643-664),
identifier logic: the key is the name itself, with no case folding
("Detect case sensitive name clashes"). -/
def RiskAnalysis.DefineParameter (s : RAState) (name : String) :
    Option VErr × RAState :=
  if name ∈ s.parameters then (some (.paramDoublyDefined name), s)
  else if name ∈ s.tbd_parameters then
    (none, { s with parameters := s.parameters ++ [name]
                    tbd_parameters := s.tbd_parameters.erase name })
  else (none, { s with parameters := s.parameters ++ [name] })

/-- `RiskAnalysis::DefineGate` (risk_analysis.cc lines 252-325), identifier
and registration logic: the id is the lower-cased name; a doubly defined gate
or a clash with a (tbd) primary event throws; otherwise the gate is promoted
from `tbd_gates_` or freshly created (running `UpdateIfLateEvent`) and
inserted into `gates_` with the original spelling preserved in `orig_id`.
The child-formula processing (`ProcessFormula`) is outside the claims'
scope and not modelled here. -/
def RiskAnalysis.DefineGate (s : RAState) (orig gtype : String) (vote : Int) :
    Option VErr × RAState :=
  let id := foldCase orig
  if (s.gates.lookup id).isSome then (some (.gateDoublyDefined orig), s)
  else if (s.primary_events.lookup id).isSome || (s.tbd_basic_events.lookup id).isSome
      || (s.tbd_house_events.lookup id).isSome then (some (.alreadyPrimary orig), s)
  else if gtype ∉ validGateTypes then (some (.unsupportedFormula orig), s)
  else
    match s.tbd_gates.lookup id with
    | some g =>
      (none, { s with
        tbd_gates := s.tbd_gates.eraseP fun e => e.1 == id
        gates := s.gates ++ [(id, { g with gtype := gtype, vote := vote })] })
    | none =>
      let s1 := RiskAnalysis.UpdateIfLateEvent s id
      (none, { s1 with gates := s1.gates ++
        [(id, { origId := orig, gtype := gtype, vote := vote, children := [] })] })

/-- `RiskAnalysis::GetBasicEvent` (risk_analysis.cc lines 536-575): the id is
the lower-cased name; clash checks against gates, already-defined primary
events and tbd house events throw; otherwise the event is promoted from
`tbd_basic_events_` or freshly created (running `UpdateIfLateEvent`) and
inserted into `primary_events_` and `basic_events_`. -/
def RiskAnalysis.GetBasicEvent (s : RAState) (orig : String) :
    Option VErr × RAState :=
  let id := foldCase orig
  if (s.gates.lookup id).isSome || (s.tbd_gates.lookup id).isSome then
    (some (.alreadyGate orig), s)
  else if (s.primary_events.lookup id).isSome then (some (.doublyDefined orig), s)
  else if (s.tbd_house_events.lookup id).isSome then (some (.usedByHouse orig), s)
  else
    match s.tbd_basic_events.lookup id with
    | some torig =>
      (none, { s with
        primary_events := s.primary_events ++ [(id, { origId := torig, kind := .basic })]
        basic_events := s.basic_events ++ [(id, torig)]
        tbd_basic_events := s.tbd_basic_events.eraseP fun e => e.1 == id })
    | none =>
      let s1 := { s with
        primary_events := s.primary_events ++ [(id, { origId := orig, kind := .basic })]
        basic_events := s.basic_events ++ [(id, orig)] }
      (none, RiskAnalysis.UpdateIfLateEvent s1 id)

/-- `RiskAnalysis::DefineHouseEvent` (risk_analysis.cc lines 577-641),
identifier logic: clash checks against gates, defined primary events and tbd
basic events throw; otherwise the event is promoted from `tbd_house_events_`
or freshly created and inserted into `primary_events_` only (the Boolean
state of the house event does not figure in the claims). -/
def RiskAnalysis.DefineHouseEvent (s : RAState) (orig : String) :
    Option VErr × RAState :=
  let id := foldCase orig
  if (s.gates.lookup id).isSome || (s.tbd_gates.lookup id).isSome then
    (some (.alreadyGate orig), s)
  else if (s.primary_events.lookup id).isSome then (some (.doublyDefined orig), s)
  else if (s.tbd_basic_events.lookup id).isSome then (some (.usedByBasic orig), s)
  else
    match s.tbd_house_events.lookup id with
    | some torig =>
      (none, { s with
        primary_events := s.primary_events ++ [(id, { origId := torig, kind := .house })]
        tbd_house_events := s.tbd_house_events.eraseP fun e => e.1 == id })
    | none =>
      let s1 := { s with
        primary_events := s.primary_events ++ [(id, { origId := orig, kind := .house })] }
      (none, RiskAnalysis.UpdateIfLateEvent s1 id)

/-- `RiskAnalysis::DefineFaultTree` (risk_analysis.cc lines 969-1016),
identifier logic: the id is the lower-cased name, a duplicate throws, the
display name is stored unfolded.  Child elements are processed separately
(`DefineFaultTreeSeen` models the `prob_requested_` scan of lines 995-998). -/
def RiskAnalysis.DefineFaultTree (s : RAState) (name : String) :
    Option VErr × RAState :=
  let id := foldCase name
  if (s.fault_trees.lookup id).isSome then (some (.ftDoublyDefined name), s)
  else (none, { s with fault_trees := s.fault_trees ++ [(id, name)] })

/-- The `prob_requested_` scan of `DefineFaultTree` (risk_analysis.cc lines
995-998): seeing a `define-basic-event` or `define-house-event` child sets
the flag. -/
def RiskAnalysis.DefineFaultTreeSeen (s : RAState) (childNames : List String) :
    RAState :=
  let flag := childNames.foldl
    (fun p n => p || (n == "define-basic-event" || n == "define-house-event"))
    s.prob_requested
  { s with prob_requested := flag }

/-- `RiskAnalysis::ProcessModelData` (risk_analysis.cc line 1019) sets
`prob_requested_` unconditionally. -/
def RiskAnalysis.ProcessModelDataFlag (s : RAState) : RAState :=
  { s with prob_requested := true }

/-- `RiskAnalysis::DefineCcfGroup` (risk_analysis.cc lines 1059-1120),
identifier logic: lower-cased id, duplicate throws, and on success
`prob_requested_` is set (line 1090). -/
def RiskAnalysis.DefineCcfGroup (s : RAState) (name : String) :
    Option VErr × RAState :=
  let id := foldCase name
  if (s.ccf_groups.lookup id).isSome then (some (.ccfDoublyDefined name), s)
  else (none, { s with ccf_groups := s.ccf_groups ++ [(id, name)]
                       prob_requested := true })

/-- The end-of-input step of `RiskAnalysis::ProcessInputFiles`
(risk_analysis.cc lines 83-110): when no probabilities were requested, tbd
house and basic events become primary events, and every unknown-kind
reference in `tbd_events_` is created as a fresh `BasicEvent` (with display
name from `tbd_orig_ids_`), inserted into `primary_events_` and
`basic_events_`, and attached as a child to every recorded requesting gate.
When probabilities were requested nothing is resolved here. -/
def RiskAnalysis.FinalizeTbd (s : RAState) : RAState :=
  if s.prob_requested then s
  else
    { s with
      primary_events := s.primary_events
        ++ (s.tbd_house_events.map fun e => (e.1, { origId := e.2, kind := PKind.house }))
        ++ (s.tbd_basic_events.map fun e => (e.1, { origId := e.2, kind := PKind.basic }))
        ++ (s.tbd_events.map fun e => (e.1, { origId := origOf s e.1, kind := PKind.basic }))
      basic_events := s.basic_events ++ s.tbd_basic_events
        ++ (s.tbd_events.map fun e => (e.1, origOf s e.1))
      gates := resolveAll s.gates s.tbd_events }

/-! ## First-layer validation (risk_analysis.cc, lines 1181-1386) -/

/-- A child of an INHIBIT gate counts as conditional when it is a defined
primary event carrying the attribute `flavor = "conditional"`
(risk_analysis.cc lines 1321-1324). -/
def isCondChild (flavors : List (String × String)) (primary : List (String × PrimE))
    (cid : String) : Bool :=
  (primary.lookup cid).isSome && (flavors.lookup cid == some "conditional")

/-- The conditional-child scan loop of `CheckInhibitGate` (risk_analysis.cc
lines 1317-1334): the flag records that a conditional child was found, and
each further conditional child appends a message. -/
def inhibitScan (flavors : List (String × String)) (primary : List (String × PrimE))
    (orig : String) (cs : List String) : Bool × String :=
  cs.foldl
    (fun (acc : Bool × String) cid =>
      if isCondChild flavors primary cid then
        if acc.1 then
          (acc.1, acc.2 ++ (orig ++ " : INHIBIT gate must have exactly one conditional event.\n"))
        else (true, acc.2)
      else acc)
    ((false, "") : Bool × String)

/-- `RiskAnalysis::CheckInhibitGate` (risk_analysis.cc lines 1309-1341):
exactly 2 children required; among them exactly one conditional primary
event — the first conditional found sets a flag, each further one adds a
message, and a missing conditional adds a message at the end. -/
def RiskAnalysis.CheckInhibitGate (flavors : List (String × String))
    (primary : List (String × PrimE)) (g : GateE) : String :=
  if g.children.length ≠ 2 then
    g.origId ++ " : INHIBIT gate must have exactly 2 children.\n"
  else if (inhibitScan flavors primary g.origId g.children).1 then
    (inhibitScan flavors primary g.origId g.children).2
  else
    (inhibitScan flavors primary g.origId g.children).2
      ++ (g.origId ++ " : INHIBIT gate is missing a conditional event.\n")

/-- The gate type used by `CheckGate` after inhibit detection
(risk_analysis.cc lines 1266-1269): an `and` gate carrying the attribute
`flavor = "inhibit"` is checked as an inhibit gate. -/
def effectiveType (flavors : List (String × String)) (gid : String) (g : GateE) :
    String :=
  if g.gtype = "and" ∧ flavors.lookup gid = some "inhibit" then "inhibit" else g.gtype

/-- `RiskAnalysis::CheckGate` (risk_analysis.cc lines 1240-1307): an empty
message indicates no problem.  A gate with no children is reported
immediately (the `children()` accessor throws `LogicError` there); otherwise
the arity checks depend on the effective gate type. -/
def RiskAnalysis.CheckGate (flavors : List (String × String))
    (primary : List (String × PrimE)) (gid : String) (g : GateE) : String :=
  let size := g.children.length
  if size = 0 then g.origId ++ " : No children detected."
  else
    let gate := effectiveType flavors gid g
    if gate ∈ ["and", "or", "nand", "nor"] then
      if size < 2 then
        g.origId ++ " : " ++ gate.toUpper ++ " gate must have 2 or more children.\n"
      else ""
    else if gate ∈ ["null", "not"] then
      if size ≠ 1 then
        g.origId ++ " : " ++ gate.toUpper ++ " gate must have exactly one child."
      else ""
    else if gate = "xor" then
      if size ≠ 2 then
        g.origId ++ " : " ++ gate.toUpper ++ " gate must have exactly 2 children.\n"
      else ""
    else if gate = "inhibit" then RiskAnalysis.CheckInhibitGate flavors primary g
    else if gate = "atleast" then
      if (size : Int) ≤ g.vote then
        g.origId ++ " : " ++ gate.toUpper
          ++ " gate must have more children than its vote number "
          ++ toString g.vote ++ "."
      else ""
    else g.origId ++ " : Gate Check failure. No check for " ++ gate.toUpper ++ " gate."

/-- `RiskAnalysis::CheckAllGates` (risk_analysis.cc lines 1228-1238):
concatenation of `CheckGate` over every defined gate. -/
def RiskAnalysis.CheckAllGates (s : RAState) : String :=
  s.gates.foldl
    (fun acc p => acc ++ RiskAnalysis.CheckGate s.flavors s.primary_events p.1 p.2) ""

/-- `RiskAnalysis::CheckMissingEvents` (risk_analysis.cc lines 1343-1372):
one section per non-empty tbd event map, listing the display names. -/
def RiskAnalysis.CheckMissingEvents (s : RAState) : String :=
  (if s.tbd_house_events.isEmpty then "" else
    s.tbd_house_events.foldl (fun acc e => acc ++ (e.2 ++ "\n"))
      "\nMissing definitions for House events:\n")
  ++ (if s.tbd_basic_events.isEmpty then "" else
    s.tbd_basic_events.foldl (fun acc e => acc ++ (e.2 ++ "\n"))
      "\nMissing definitions for Basic events:\n")
  ++ (if s.tbd_events.isEmpty then "" else
    s.tbd_events.foldl (fun acc e => acc ++ (origOf s e.1 ++ "\n"))
      "\nMissing definitions for Untyped events:\n")

/-- `RiskAnalysis::CheckMissingParameters` (risk_analysis.cc lines
1374-1386). -/
def RiskAnalysis.CheckMissingParameters (s : RAState) : String :=
  if s.tbd_parameters.isEmpty then "" else
    s.tbd_parameters.foldl (fun acc n => acc ++ (n ++ "\n"))
      "\nMissing parameter definitions:\n"

/-- The accumulated diagnostic text of `RiskAnalysis::CheckFirstLayer`
(risk_analysis.cc lines 1181-1210): undefined gates, gate problems, and —
only when probabilities were requested — missing event and parameter
definitions. -/
def RiskAnalysis.FirstLayerMessage (s : RAState) : String :=
  (if s.tbd_gates.isEmpty then "" else
    s.tbd_gates.foldl (fun acc p => acc ++ (p.2.origId ++ "\n")) "Undefined gates:\n")
  ++ (if RiskAnalysis.CheckAllGates s = "" then "" else
    "\nThere are problems with the initialized gates:\n" ++ RiskAnalysis.CheckAllGates s)
  ++ (if s.prob_requested then
        RiskAnalysis.CheckMissingEvents s ++ RiskAnalysis.CheckMissingParameters s
      else "")

/-- `RiskAnalysis::CheckFirstLayer`: a single `ValidationError` carrying the
whole accumulated message is thrown exactly when the message is non-empty. -/
def RiskAnalysis.CheckFirstLayer (s : RAState) : Option String :=
  if RiskAnalysis.FirstLayerMessage s = "" then none
  else some (RiskAnalysis.FirstLayerMessage s)

/-! ## Statements of the claims' validation rules -/

/-- `part` occurs verbatim inside `whole`. -/
def Mentions (part whole : String) : Prop := part.data <:+: whole.data

/-- Number of conditional children of an inhibit gate. -/
def countCond (flavors : List (String × String)) (primary : List (String × PrimE))
    (cs : List String) : Nat :=
  (cs.filter (isCondChild flavors primary)).length

/-- The gate arity rule exactly as claimed: AND/OR/NAND/NOR need at least 2
children, NOT/NULL exactly 1, XOR exactly 2, ATLEAST more children than its
vote number `k` with `k ≥ 2`, INHIBIT exactly 2 children with exactly one
conditional. -/
def GateArityOkClaim (flavors : List (String × String))
    (primary : List (String × PrimE)) (gid : String) (g : GateE) : Bool :=
  let size := g.children.length
  let gate := effectiveType flavors gid g
  if gate ∈ ["and", "or", "nand", "nor"] then decide (2 ≤ size)
  else if gate ∈ ["null", "not"] then size == 1
  else if gate = "xor" then size == 2
  else if gate = "inhibit" then
    size == 2 && countCond flavors primary g.children == 1
  else if gate = "atleast" then
    decide (g.vote < (size : Int)) && decide (2 ≤ g.vote)
  else false

/-- The gate arity rule as actually enforced by first-layer validation:
same as `GateArityOkClaim` except that for ATLEAST only "at least one child
and more children than the vote number" is checked — the constraint `k ≥ 2`
on the vote number itself is not part of first-layer validation. -/
def GateArityOkAmended (flavors : List (String × String))
    (primary : List (String × PrimE)) (gid : String) (g : GateE) : Bool :=
  let size := g.children.length
  let gate := effectiveType flavors gid g
  if gate ∈ ["and", "or", "nand", "nor"] then decide (2 ≤ size)
  else if gate ∈ ["null", "not"] then size == 1
  else if gate = "xor" then size == 2
  else if gate = "inhibit" then
    size == 2 && countCond flavors primary g.children == 1
  else if gate = "atleast" then
    decide (1 ≤ size) && decide (g.vote < (size : Int))
  else false

/-- An ATLEAST gate with vote number 1 and two children: no diagnostic from
`CheckGate`, although the claimed rule (vote number at least 2) is
violated. -/
def atleastGateK1 : GateE :=
  { origId := "G0", gtype := "atleast", vote := 1, children := ["a", "b"] }

/-- A state whose only entity is a defined house event with id `h`. -/
def houseOnlyState : RAState :=
  { emptyState with primary_events := [("h", { origId := "H", kind := PKind.house })] }

/-- Concrete normalized node `a AND b` for evaluating the product engine. -/
def nodeAB : GNode :=
  .gand (.lit { var := "a", complement := false }) (.lit { var := "b", complement := false })

/-- The product expected for `nodeAB`. -/
def prodAB : List Lit :=
  [{ var := "a", complement := false }, { var := "b", complement := false }]

/-- A well-formed binary AND gate. -/
def andGate2 : GateE :=
  { origId := "GA", gtype := "and", vote := -1, children := ["a", "b"] }

/-- A malformed unary AND gate. -/
def andGate1 : GateE :=
  { origId := "GB", gtype := "and", vote := -1, children := ["a"] }

/-- A state, before end-of-input processing, holding one unknown-kind
reference `x` (display name `X`) requested by the defined gate `g1`, with no
probability data seen. -/
def tbdXState : RAState :=
  { emptyState with
    gates := [("g1", { origId := "G1", gtype := "and", vote := -1, children := ["a"] })]
    tbd_events := [("x", ["g1"])]
    tbd_orig_ids := [("x", "X")] }

/-- A state, before end-of-input processing, with probability data seen and
one unresolved basic-event reference. -/
def tbdProbState : RAState :=
  { emptyState with
    prob_requested := true
    tbd_basic_events := [("bb", "BB")] }

/-- A state with several distinct structural defects: an undefined gate, a
defined gate with too few children, and (with probabilities requested) a
missing basic-event definition and a missing parameter definition. -/
def defectsState : RAState :=
  { emptyState with
    prob_requested := true
    tbd_gates := [("gu", { origId := "GU", gtype := "or", vote := -1, children := [] })]
    gates := [("gb", andGate1)]
    tbd_basic_events := [("bb", "BB")]
    tbd_parameters := ["Par1"] }

/-- A state whose only entity is the defined gate `g`. -/
def gateOnlyState : RAState :=
  { emptyState with gates := [("g", andGate2)] }

/-- A state whose only entity is a tbd (referenced, undefined) house event
`h`. -/
def tbdHouseState : RAState :=
  { emptyState with tbd_house_events := [("h", "H")] }

/-- The gate stored under key `gid` (if any) has `cid` among its children. -/
def ChildProp (gid cid : String) (gs : List (String × GateE)) : Prop :=
  ∀ g, gs.lookup gid = some g → cid ∈ g.children

/-! ## General helper lemmas -/

theorem str_append_eq_empty (s t : String) : s ++ t = "" ↔ s = "" ∧ t = "" := by
  constructor
  · intro h
    have h2 : s.data ++ t.data = [] := by
      have h3 := congrArg String.data h
      simpa using h3
    rcases List.append_eq_nil.mp h2 with ⟨hs, ht⟩
    exact ⟨String.ext (by simpa using hs), String.ext (by simpa using ht)⟩
  · rintro ⟨rfl, rfl⟩
    rfl

theorem append_right_ne (s t : String) (ht : t ≠ "") : s ++ t ≠ "" := by
  intro h
  exact ht ((str_append_eq_empty s t).mp h).2

theorem infix_app_right {α : Type} (l₁ l₂ : List α) : l₁ <:+: l₁ ++ l₂ :=
  ⟨[], l₂, by simp⟩

theorem infix_app_left {α : Type} (l₁ l₂ : List α) : l₂ <:+: l₁ ++ l₂ :=
  ⟨l₁, [], by simp⟩

theorem mentions_refl (s : String) : Mentions s s := List.infix_refl _

theorem mentions_append_right {p w : String} (x : String) (h : Mentions p w) :
    Mentions p (w ++ x) := by
  unfold Mentions at *
  rw [String.data_append]
  exact h.trans (infix_app_right _ _)

theorem mentions_append_left {p x : String} (w : String) (h : Mentions p x) :
    Mentions p (w ++ x) := by
  unfold Mentions at *
  rw [String.data_append]
  exact h.trans (infix_app_left _ _)

theorem mentions_trans {p q w : String} (h1 : Mentions p q) (h2 : Mentions q w) :
    Mentions p w := List.IsInfix.trans h1 h2

theorem mentions_ne_empty {p w : String} (h : Mentions p w) (hp : p ≠ "") :
    w ≠ "" := by
  intro hw
  subst hw
  have hnil : p.data ≠ [] := fun hd => hp (String.ext (by simpa using hd))
  exact (List.IsInfix.ne_nil h hnil) rfl

theorem mentions_foldl_init {α : Type} (g : α → String) (xs : List α)
    (init p : String) (h : Mentions p init) :
    Mentions p (xs.foldl (fun acc y => acc ++ g y) init) := by
  induction xs generalizing init with
  | nil => exact h
  | cons a t ih => exact ih _ (mentions_append_right _ h)

theorem mentions_foldl_mem {α : Type} (g : α → String) (xs : List α)
    (init : String) (x : α) (hx : x ∈ xs) :
    Mentions (g x) (xs.foldl (fun acc y => acc ++ g y) init) := by
  induction xs generalizing init with
  | nil => cases hx
  | cons a t ih =>
    rcases List.mem_cons.mp hx with rfl | h
    · exact mentions_foldl_init g t _ _ (mentions_append_left _ (mentions_refl _))
    · exact ih _ h

theorem foldl_or_true {α : Type} (f : α → Bool) (xs : List α) (b : Bool)
    (x : α) (hx : x ∈ xs) (hfx : f x = true) :
    xs.foldl (fun p n => p || f n) b = true := by
  have htrue : ∀ (ys : List α), ys.foldl (fun p n => p || f n) true = true := by
    intro ys
    induction ys with
    | nil => rfl
    | cons a t ih => simpa using ih
  induction xs generalizing b with
  | nil => cases hx
  | cons a t ih =>
    rcases List.mem_cons.mp hx with rfl | h
    · simp only [List.foldl_cons, hfx, Bool.or_true]
      exact htrue t
    · exact ih _ h

/-! ## C1 and C9: the probability of a product -/

/-- C1: for every product with per-event probabilities given, `Product::p`
computes exactly the arithmetic product over its literals of the literal's
probability, a complemented literal contributing `1 - p(event)` and a plain
literal contributing `p(event)`. -/
theorem Product_p_eq_prod_of_literal_probs (prod : Product) :
    Product.p prod
      = (prod.map fun l => if l.complement then 1 - l.eventP else l.eventP).prod := by
  have h : ∀ (xs : List Literal) (init : ℚ),
      xs.foldl (fun acc l => acc * (if l.complement then 1 - l.eventP else l.eventP)) init
        = init * (xs.map fun l => if l.complement then 1 - l.eventP else l.eventP).prod := by
    intro xs
    induction xs with
    | nil => intro init; simp
    | cons x t ih =>
      intro init
      simp only [List.foldl_cons, List.map_cons, List.prod_cons, ih, mul_assoc]
  simpa [Product.p] using h prod 1

/-- C9: the probability of the empty (UNITY) product is exactly `1`; the
fold of `Product::p` starts at `1` and consults no event probability. -/
theorem Product_p_empty_product_eq_one : Product.p ([] : Product) = 1 := rfl

/-! ## C5: `FaultTreeAnalysis::Store` special cases -/

/-- C5: storing an empty product set records the NULL (guaranteed success)
warning, storing the base set (the single empty product) records the UNITY
(guaranteed failure) warning, and in both cases `Store` completes without
raising any error, returning the container unchanged. -/
theorem Store_special_case_warnings (z : Zbdd) (w : List String) :
    (z = [] →
      FaultTreeAnalysis.Store z w = Except.ok (w ++ [nullWarning], z)) ∧
    (z = [[]] →
      FaultTreeAnalysis.Store z w = Except.ok (w ++ [unityWarning], z)) := by
  constructor
  · rintro rfl; rfl
  · rintro rfl; rfl

theorem Store_special_case_warnings_witness :
    FaultTreeAnalysis.Store [] ["w0"] = Except.ok (["w0"] ++ [nullWarning], ([] : Zbdd)) ∧
    FaultTreeAnalysis.Store [[]] ["w0"] = Except.ok (["w0"] ++ [unityWarning], ([[]] : Zbdd)) :=
  ⟨(Store_special_case_warnings [] ["w0"]).1 rfl,
   (Store_special_case_warnings [[]] ["w0"]).2 rfl⟩

/-! ## C10: MissionTime contracts -/

/-- C10: whatever the mission-time value, `Min()` is `0`, `Mean()` is the
set value, `IsDeviate()` is `false`, and starting from a fresh per-trial
sampling state every consecutive `Sample()` call deterministically returns
the set value. -/
theorem MissionTime_contracts (m : MissionTime) :
    m.Min = 0 ∧ m.Mean = m.value ∧ m.IsDeviate = false ∧
      ∀ (n : Nat) (st : SampleState), st.sampled = false →
        (m.sampleIter n st).1 = m.value := by
  refine ⟨rfl, rfl, rfl, ?_⟩
  have aux : ∀ (n : Nat) (st : SampleState),
      st.sampled = false ∨ st.sampledValue = m.value →
      (m.sampleIter n st).1 = m.value ∧
        ((m.sampleIter n st).2.sampled = false ∨
          (m.sampleIter n st).2.sampledValue = m.value) := by
    intro n
    induction n with
    | zero =>
      intro st h
      rcases h with h | h
      · simp [MissionTime.sampleIter, MissionTime.Sample, h, MissionTime.DoSample]
      · by_cases hs : st.sampled
        · simp [MissionTime.sampleIter, MissionTime.Sample, hs, h]
        · simp [MissionTime.sampleIter, MissionTime.Sample, hs, MissionTime.DoSample]
    | succ k ih =>
      intro st h
      have hstep : ((m.Sample st).2.sampled = false ∨
          (m.Sample st).2.sampledValue = m.value) := by
        rcases h with h | h
        · simp [MissionTime.Sample, h, MissionTime.DoSample]
        · by_cases hs : st.sampled
          · simp [MissionTime.Sample, hs, h]
          · simp [MissionTime.Sample, hs, MissionTime.DoSample]
      simpa [MissionTime.sampleIter] using ih (m.Sample st).2 hstep
  intro n st h
  exact (aux n st (Or.inl h)).1

theorem MissionTime_contracts_witness :
    ({ unit := Units.hours, value := 7 } : MissionTime).Min = 0 ∧
    ({ unit := Units.hours, value := 7 } : MissionTime).Mean = 7 ∧
    ({ unit := Units.hours, value := 7 } : MissionTime).IsDeviate = false ∧
    (({ unit := Units.hours, value := 7 } : MissionTime).sampleIter 3
      { sampled := false, sampledValue := 0 }).1 = 7 := by
  obtain ⟨h1, h2, h3, h4⟩ :=
    MissionTime_contracts { unit := Units.hours, value := 7 }
  exact ⟨h1, h2, h3, h4 3 { sampled := false, sampledValue := 0 } rfl⟩

/-! ## C6: products never exceed the order limit -/

/-- C6: every product produced by the (spec-modelled) MCS engine, and hence
every product in the stored container, has at most `limit` literals, for any
order limit of at least 1. -/
theorem products_size_le_limit (limit : Nat) (n : GNode) (h : 1 ≤ limit) :
    ∀ P ∈ products limit n, P.length ≤ limit := by
  induction n with
  | lit l =>
    intro P hP
    simp only [products, List.mem_singleton] at hP
    subst hP
    simpa using h
  | gand a b iha ihb =>
    intro P hP
    have h1 : P ∈ combineProducts limit (products limit a) (products limit b) :=
      (List.mem_filter.mp hP).1
    have h2 := (List.mem_filter.mp h1).2
    simp only [Bool.and_eq_true, decide_eq_true_eq] at h2
    exact h2.2
  | gor a b iha ihb =>
    intro P hP
    have h1 : P ∈ products limit a ++ products limit b :=
      (List.mem_filter.mp hP).1
    rcases List.mem_append.mp h1 with h2 | h2
    · exact iha P h2
    · exact ihb P h2

theorem products_size_le_limit_witness :
    prodAB ∈ products 2 nodeAB ∧ prodAB.length ≤ 2 := by
  have he : products 2 nodeAB = [prodAB] := by decide
  have hm : prodAB ∈ products 2 nodeAB := by
    rw [he]
    exact List.mem_singleton.mpr rfl
  exact ⟨hm, products_size_le_limit 2 nodeAB (by decide) prodAB hm⟩

/-! ## Attachment lemmas for tbd-event resolution -/

theorem lookup_addChildTo (gs : List (String × GateE)) (a cid gid : String) :
    (addChildTo gs a cid).lookup gid
      = (gs.lookup gid).map fun g => if gid = a then g.AddChild cid else g := by
  induction gs with
  | nil => rfl
  | cons p t ih =>
    rcases p with ⟨k, g⟩
    simp only [addChildTo, List.map_cons] at ih ⊢
    by_cases hgk : gid = k
    · subst hgk
      simp [List.lookup]
    · have hb : (gid == k) = false := by simp [hgk]
      simp [List.lookup, hb, ih]

theorem addChild_mem (g : GateE) (cid : String) : cid ∈ (g.AddChild cid).children := by
  unfold GateE.AddChild
  by_cases h : cid ∈ g.children
  · simp [h]
  · simp [h]

theorem addChild_mem_mono (g : GateE) (c cid : String) (h : cid ∈ g.children) :
    cid ∈ (g.AddChild c).children := by
  unfold GateE.AddChild
  by_cases hc : c ∈ g.children
  · simpa [hc]
  · simp only [hc, if_false, List.mem_append]
    exact Or.inl h

theorem childProp_addChildTo (gs : List (String × GateE)) (a c gid cid : String)
    (h : ChildProp gid cid gs) : ChildProp gid cid (addChildTo gs a c) := by
  intro g hg
  rw [lookup_addChildTo] at hg
  rcases hmap : gs.lookup gid with _ | g0
  · rw [hmap] at hg; cases hg
  · rw [hmap] at hg
    simp only [Option.map_some'] at hg
    have hg2 : (if gid = a then g0.AddChild c else g0) = g := Option.some.inj hg
    have hmem := h g0 hmap
    subst hg2
    by_cases hga : gid = a
    · simp only [hga, if_true]
      exact addChild_mem_mono g0 c cid hmem
    · simpa [hga] using hmem

theorem childProp_estab (gs : List (String × GateE)) (gid cid : String) :
    ChildProp gid cid (addChildTo gs gid cid) := by
  intro g hg
  rw [lookup_addChildTo] at hg
  rcases hmap : gs.lookup gid with _ | g0
  · rw [hmap] at hg; cases hg
  · rw [hmap] at hg
    simp only [Option.map_some'] at hg
    have hg2 := Option.some.inj hg
    simp only [if_true] at hg2
    subst hg2
    exact addChild_mem g0 cid

theorem childProp_fold (qs : List String) (eid gid cid : String)
    (gs : List (String × GateE)) (h : ChildProp gid cid gs) :
    ChildProp gid cid (qs.foldl (fun acc q => addChildTo acc q eid) gs) := by
  induction qs generalizing gs with
  | nil => exact h
  | cons a t ih => exact ih _ (childProp_addChildTo _ _ _ _ _ h)

theorem childProp_resolveEntry (e : String × List String) (gid cid : String)
    (gs : List (String × GateE)) (h : ChildProp gid cid gs) :
    ChildProp gid cid (resolveEntry gs e) := by
  obtain ⟨eid, ps⟩ := e
  simpa [resolveEntry] using childProp_fold ps eid gid cid gs h

theorem childProp_resolveEntry_estab (gs : List (String × GateE))
    (eid : String) (ps : List String) (gid : String) (hg : gid ∈ ps) :
    ChildProp gid eid (resolveEntry gs (eid, ps)) := by
  simp only [resolveEntry]
  induction ps generalizing gs with
  | nil => cases hg
  | cons a t ih =>
    rcases List.mem_cons.mp hg with rfl | h
    · exact childProp_fold t eid gid eid _ (childProp_estab gs gid eid)
    · exact ih _ h


theorem childProp_foldResolve (t : List (String × List String)) (gid cid : String)
    (gs : List (String × GateE)) (h : ChildProp gid cid gs) :
    ChildProp gid cid (t.foldl resolveEntry gs) := by
  induction t generalizing gs with
  | nil => exact h
  | cons f t2 ih => exact ih _ (childProp_resolveEntry f _ _ _ h)

theorem childProp_resolveAll (gs : List (String × GateE))
    (tbd : List (String × List String)) (e : String × List String)
    (gid : String) (he : e ∈ tbd) (hg : gid ∈ e.2) :
    ChildProp gid e.1 (resolveAll gs tbd) := by
  unfold resolveAll
  induction tbd generalizing gs with
  | nil => cases he
  | cons f t ih =>
    rcases List.mem_cons.mp he with rfl | h
    · have h1 : ChildProp gid e.1 (resolveEntry gs e) := by
        obtain ⟨eid, ps⟩ := e
        exact childProp_resolveEntry_estab gs eid ps gid hg
      exact childProp_foldResolve t gid e.1 _ h1
    · exact ih _ h

/-! ## Mention lemmas for the first-layer diagnostics -/

theorem cme_mentions_house (s : RAState) (e : String × String)
    (he : e ∈ s.tbd_house_events) :
    Mentions (e.2 ++ "\n") (RiskAnalysis.CheckMissingEvents s) := by
  unfold RiskAnalysis.CheckMissingEvents
  apply mentions_append_right
  apply mentions_append_right
  have hne : s.tbd_house_events.isEmpty = false := by
    rcases hl : s.tbd_house_events with _ | ⟨a, t⟩
    · rw [hl] at he; cases he
    · rfl
  rw [hne]
  simp only [Bool.false_eq_true, if_false]
  exact mentions_foldl_mem (fun e => e.2 ++ "\n") s.tbd_house_events _ e he

theorem cme_mentions_basic (s : RAState) (e : String × String)
    (he : e ∈ s.tbd_basic_events) :
    Mentions (e.2 ++ "\n") (RiskAnalysis.CheckMissingEvents s) := by
  unfold RiskAnalysis.CheckMissingEvents
  apply mentions_append_right
  apply mentions_append_left
  have hne : s.tbd_basic_events.isEmpty = false := by
    rcases hl : s.tbd_basic_events with _ | ⟨a, t⟩
    · rw [hl] at he; cases he
    · rfl
  rw [hne]
  simp only [Bool.false_eq_true, if_false]
  exact mentions_foldl_mem (fun e => e.2 ++ "\n") s.tbd_basic_events _ e he

theorem cme_mentions_untyped (s : RAState) (e : String × List String)
    (he : e ∈ s.tbd_events) :
    Mentions (origOf s e.1 ++ "\n") (RiskAnalysis.CheckMissingEvents s) := by
  unfold RiskAnalysis.CheckMissingEvents
  apply mentions_append_left
  have hne : s.tbd_events.isEmpty = false := by
    rcases hl : s.tbd_events with _ | ⟨a, t⟩
    · rw [hl] at he; cases he
    · rfl
  rw [hne]
  simp only [Bool.false_eq_true, if_false]
  exact mentions_foldl_mem (fun e => origOf s e.1 ++ "\n") s.tbd_events _ e he

theorem cmp_mentions_param (s : RAState) (q : String) (hq : q ∈ s.tbd_parameters) :
    Mentions (q ++ "\n") (RiskAnalysis.CheckMissingParameters s) := by
  unfold RiskAnalysis.CheckMissingParameters
  have hne : s.tbd_parameters.isEmpty = false := by
    rcases hl : s.tbd_parameters with _ | ⟨a, t⟩
    · rw [hl] at hq; cases hq
    · rfl
  rw [hne]
  simp only [Bool.false_eq_true, if_false]
  exact mentions_foldl_mem (fun n => n ++ "\n") s.tbd_parameters _ q hq

theorem flm_mentions_tbd_gate (s : RAState) (p : String × GateE)
    (hp : p ∈ s.tbd_gates) :
    Mentions (p.2.origId ++ "\n") (RiskAnalysis.FirstLayerMessage s) := by
  unfold RiskAnalysis.FirstLayerMessage
  apply mentions_append_right
  apply mentions_append_right
  have hne : s.tbd_gates.isEmpty = false := by
    rcases hl : s.tbd_gates with _ | ⟨a, t⟩
    · rw [hl] at hp; cases hp
    · rfl
  rw [hne]
  simp only [Bool.false_eq_true, if_false]
  exact mentions_foldl_mem (fun p => p.2.origId ++ "\n") s.tbd_gates _ p hp

theorem flm_mentions_checkAllGates (s : RAState)
    (h : RiskAnalysis.CheckAllGates s ≠ "") :
    Mentions (RiskAnalysis.CheckAllGates s) (RiskAnalysis.FirstLayerMessage s) := by
  unfold RiskAnalysis.FirstLayerMessage
  apply mentions_append_right
  apply mentions_append_left
  rw [if_neg h]
  exact mentions_append_left _ (mentions_refl _)

theorem flm_mentions_missing (s : RAState) (h : s.prob_requested = true) :
    Mentions (RiskAnalysis.CheckMissingEvents s ++ RiskAnalysis.CheckMissingParameters s)
      (RiskAnalysis.FirstLayerMessage s) := by
  unfold RiskAnalysis.FirstLayerMessage
  apply mentions_append_left
  rw [h]
  simp only [if_true]
  exact mentions_refl _

theorem cfl_eq_some (s : RAState) (h : RiskAnalysis.FirstLayerMessage s ≠ "") :
    RiskAnalysis.CheckFirstLayer s = some (RiskAnalysis.FirstLayerMessage s) := by
  simp [RiskAnalysis.CheckFirstLayer, h]

/-! ## C4: first-layer validation accumulates all diagnostics -/

/-- C4: first-layer validation accumulates every structural diagnostic into
the single validation error it raises: whenever a structural defect exists —
an undefined gate, a defined gate failing its gate check, or (with
probabilities requested) a missing event or parameter definition — the one
error produced by `CheckFirstLayer` mentions every such defect. -/
theorem CheckFirstLayer_collects_all_diagnostics (s : RAState) :
    (∀ p ∈ s.tbd_gates,
      ∃ m, RiskAnalysis.CheckFirstLayer s = some m ∧ Mentions (p.2.origId ++ "\n") m) ∧
    (∀ p ∈ s.gates, RiskAnalysis.CheckGate s.flavors s.primary_events p.1 p.2 ≠ "" →
      ∃ m, RiskAnalysis.CheckFirstLayer s = some m ∧
        Mentions (RiskAnalysis.CheckGate s.flavors s.primary_events p.1 p.2) m) ∧
    (s.prob_requested = true →
      (∀ e ∈ s.tbd_house_events,
        ∃ m, RiskAnalysis.CheckFirstLayer s = some m ∧ Mentions (e.2 ++ "\n") m) ∧
      (∀ e ∈ s.tbd_basic_events,
        ∃ m, RiskAnalysis.CheckFirstLayer s = some m ∧ Mentions (e.2 ++ "\n") m) ∧
      (∀ e ∈ s.tbd_events,
        ∃ m, RiskAnalysis.CheckFirstLayer s = some m ∧ Mentions (origOf s e.1 ++ "\n") m) ∧
      (∀ q ∈ s.tbd_parameters,
        ∃ m, RiskAnalysis.CheckFirstLayer s = some m ∧ Mentions (q ++ "\n") m)) := by
  have newlineNe : ∀ (x : String), x ++ "\n" ≠ "" := fun x =>
    append_right_ne x "\n" (by decide)
  refine ⟨?_, ?_, ?_⟩
  · intro p hp
    have hmen := flm_mentions_tbd_gate s p hp
    have hne := mentions_ne_empty hmen (newlineNe _)
    exact ⟨_, cfl_eq_some s hne, hmen⟩
  · intro p hp hcg
    have h1 : Mentions (RiskAnalysis.CheckGate s.flavors s.primary_events p.1 p.2)
        (RiskAnalysis.CheckAllGates s) := by
      unfold RiskAnalysis.CheckAllGates
      exact mentions_foldl_mem
        (fun p => RiskAnalysis.CheckGate s.flavors s.primary_events p.1 p.2)
        s.gates _ p hp
    have h2 : RiskAnalysis.CheckAllGates s ≠ "" := mentions_ne_empty h1 hcg
    have hmen := mentions_trans h1 (flm_mentions_checkAllGates s h2)
    have hne := mentions_ne_empty hmen hcg
    exact ⟨_, cfl_eq_some s hne, hmen⟩
  · intro hprob
    have hmm := flm_mentions_missing s hprob
    refine ⟨?_, ?_, ?_, ?_⟩
    · intro e he
      have hmen := mentions_trans
        (mentions_append_right _ (cme_mentions_house s e he)) hmm
      have hne := mentions_ne_empty hmen (newlineNe _)
      exact ⟨_, cfl_eq_some s hne, hmen⟩
    · intro e he
      have hmen := mentions_trans
        (mentions_append_right _ (cme_mentions_basic s e he)) hmm
      have hne := mentions_ne_empty hmen (newlineNe _)
      exact ⟨_, cfl_eq_some s hne, hmen⟩
    · intro e he
      have hmen := mentions_trans
        (mentions_append_right _ (cme_mentions_untyped s e he)) hmm
      have hne := mentions_ne_empty hmen (newlineNe _)
      exact ⟨_, cfl_eq_some s hne, hmen⟩
    · intro q hq
      have hmen := mentions_trans
        (mentions_append_left _ (cmp_mentions_param s q hq)) hmm
      have hne := mentions_ne_empty hmen (newlineNe _)
      exact ⟨_, cfl_eq_some s hne, hmen⟩

theorem CheckFirstLayer_collects_all_diagnostics_witness :
    (∃ m, RiskAnalysis.CheckFirstLayer defectsState = some m ∧
      Mentions ("GU" ++ "\n") m) ∧
    (∃ m, RiskAnalysis.CheckFirstLayer defectsState = some m ∧
      Mentions (RiskAnalysis.CheckGate defectsState.flavors
        defectsState.primary_events "gb" andGate1) m) ∧
    (∃ m, RiskAnalysis.CheckFirstLayer defectsState = some m ∧
      Mentions ("BB" ++ "\n") m) ∧
    (∃ m, RiskAnalysis.CheckFirstLayer defectsState = some m ∧
      Mentions ("Par1" ++ "\n") m) := by
  obtain ⟨h1, h2, h3⟩ := CheckFirstLayer_collects_all_diagnostics defectsState
  obtain ⟨h4, h5, h6, h7⟩ := h3 rfl
  exact ⟨h1 ("gu", { origId := "GU", gtype := "or", vote := -1, children := [] })
      (by decide),
    h2 ("gb", andGate1) (by decide) (by decide),
    h5 ("bb", "BB") (by decide),
    h7 "Par1" (by decide)⟩

/-! ## C2: end-of-input handling of unresolved references -/

/-- C2: at end of input processing, if no probabilities were requested, every
unresolved reference of still-unknown kind is auto-created as a basic event
(entering `basic_events_` and `primary_events_`) and attached as a child to
every gate that referenced it; if probabilities were requested — the flag set
by `model-data`, by CCF groups, and by `define-basic-event` or
`define-house-event` elements — nothing is auto-created and every unresolved
reference is reported in the missing-definition validation error raised by
first-layer validation. -/
theorem end_of_input_tbd_resolution :
    (∀ s : RAState, s.prob_requested = false → ∀ e ∈ s.tbd_events,
      e.1 ∈ (RiskAnalysis.FinalizeTbd s).basic_events.map Prod.fst ∧
      e.1 ∈ (RiskAnalysis.FinalizeTbd s).primary_events.map Prod.fst ∧
      ∀ gid ∈ e.2, ChildProp gid e.1 (RiskAnalysis.FinalizeTbd s).gates) ∧
    (∀ s : RAState, s.prob_requested = true →
      RiskAnalysis.FinalizeTbd s = s ∧
      (∀ e ∈ s.tbd_house_events,
        ∃ m, RiskAnalysis.CheckFirstLayer s = some m ∧ Mentions (e.2 ++ "\n") m) ∧
      (∀ e ∈ s.tbd_basic_events,
        ∃ m, RiskAnalysis.CheckFirstLayer s = some m ∧ Mentions (e.2 ++ "\n") m) ∧
      (∀ e ∈ s.tbd_events,
        ∃ m, RiskAnalysis.CheckFirstLayer s = some m ∧
          Mentions (origOf s e.1 ++ "\n") m)) ∧
    (∀ s : RAState, (RiskAnalysis.ProcessModelDataFlag s).prob_requested = true) ∧
    (∀ (s : RAState) (name : String), (RiskAnalysis.DefineCcfGroup s name).1 = none →
      (RiskAnalysis.DefineCcfGroup s name).2.prob_requested = true) ∧
    (∀ (s : RAState) (names : List String) (n : String), n ∈ names →
      n = "define-basic-event" ∨ n = "define-house-event" →
      (RiskAnalysis.DefineFaultTreeSeen s names).prob_requested = true) := by
  have newlineNe : ∀ (x : String), x ++ "\n" ≠ "" := fun x =>
    append_right_ne x "\n" (by decide)
  refine ⟨?_, ?_, fun s => rfl, ?_, ?_⟩
  · intro s hprob e he
    have hgoal : RiskAnalysis.FinalizeTbd s =
        { s with
          primary_events := s.primary_events
            ++ (s.tbd_house_events.map fun e => (e.1, { origId := e.2, kind := PKind.house }))
            ++ (s.tbd_basic_events.map fun e => (e.1, { origId := e.2, kind := PKind.basic }))
            ++ (s.tbd_events.map fun e => (e.1, { origId := origOf s e.1, kind := PKind.basic }))
          basic_events := s.basic_events ++ s.tbd_basic_events
            ++ (s.tbd_events.map fun e => (e.1, origOf s e.1))
          gates := resolveAll s.gates s.tbd_events } := by
      simp [RiskAnalysis.FinalizeTbd, hprob]
    refine ⟨?_, ?_, ?_⟩
    · have h1 : (e.1, origOf s e.1) ∈ s.tbd_events.map fun e => (e.1, origOf s e.1) :=
        List.mem_map_of_mem _ he
      have h2 : (e.1, origOf s e.1) ∈ (RiskAnalysis.FinalizeTbd s).basic_events := by
        rw [hgoal]
        exact List.mem_append.mpr (Or.inr h1)
      exact List.mem_map_of_mem Prod.fst h2
    · have h1 : (e.1, ({ origId := origOf s e.1, kind := PKind.basic } : PrimE))
          ∈ s.tbd_events.map fun e =>
            (e.1, ({ origId := origOf s e.1, kind := PKind.basic } : PrimE)) :=
        List.mem_map_of_mem _ he
      have h2 : (e.1, ({ origId := origOf s e.1, kind := PKind.basic } : PrimE))
          ∈ (RiskAnalysis.FinalizeTbd s).primary_events := by
        rw [hgoal]
        exact List.mem_append.mpr (Or.inr h1)
      exact List.mem_map_of_mem Prod.fst h2
    · intro gid hgid
      rw [hgoal]
      exact childProp_resolveAll s.gates s.tbd_events e gid he hgid
  · intro s hprob
    have hid : RiskAnalysis.FinalizeTbd s = s := by
      simp [RiskAnalysis.FinalizeTbd, hprob]
    have hmm := flm_mentions_missing s hprob
    refine ⟨hid, ?_, ?_, ?_⟩
    · intro e he
      have hmen := mentions_trans
        (mentions_append_right _ (cme_mentions_house s e he)) hmm
      have hne := mentions_ne_empty hmen (newlineNe _)
      exact ⟨_, cfl_eq_some s hne, hmen⟩
    · intro e he
      have hmen := mentions_trans
        (mentions_append_right _ (cme_mentions_basic s e he)) hmm
      have hne := mentions_ne_empty hmen (newlineNe _)
      exact ⟨_, cfl_eq_some s hne, hmen⟩
    · intro e he
      have hmen := mentions_trans
        (mentions_append_right _ (cme_mentions_untyped s e he)) hmm
      have hne := mentions_ne_empty hmen (newlineNe _)
      exact ⟨_, cfl_eq_some s hne, hmen⟩
  · intro s name h
    simp only [RiskAnalysis.DefineCcfGroup] at h ⊢
    by_cases hc : (s.ccf_groups.lookup (foldCase name)).isSome = true
    · simp [hc] at h
    · simp [hc]
  · intro s names n hn hval
    have hfx : (n == "define-basic-event" || n == "define-house-event") = true := by
      rcases hval with rfl | rfl <;> simp
    exact foldl_or_true (fun n => n == "define-basic-event" || n == "define-house-event")
      names s.prob_requested n hn hfx

theorem end_of_input_tbd_resolution_witness :
    ("x" ∈ (RiskAnalysis.FinalizeTbd tbdXState).basic_events.map Prod.fst) ∧
    ChildProp "g1" "x" (RiskAnalysis.FinalizeTbd tbdXState).gates ∧
    RiskAnalysis.FinalizeTbd tbdProbState = tbdProbState ∧
    (∃ m, RiskAnalysis.CheckFirstLayer tbdProbState = some m ∧
      Mentions ("BB" ++ "\n") m) ∧
    (RiskAnalysis.DefineFaultTreeSeen emptyState
      ["define-basic-event"]).prob_requested = true := by
  obtain ⟨h1, h2, _, _, h5⟩ := end_of_input_tbd_resolution
  have ha := h1 tbdXState rfl ("x", ["g1"]) (by decide)
  have hb := h2 tbdProbState rfl
  exact ⟨ha.1, ha.2.2 "g1" (by decide), hb.1, hb.2.2.1 ("bb", "BB") (by decide),
    h5 emptyState ["define-basic-event"] "define-basic-event" (by decide) (Or.inl rfl)⟩

/-! ## C3: gate arity checks -/

theorem inhibit_fold_fst (q : String → Bool) (X : String) (cs : List String) :
    ∀ (acc : Bool × String),
    (cs.foldl
      (fun (acc : Bool × String) cid =>
        if q cid then (if acc.1 then (acc.1, acc.2 ++ X) else (true, acc.2)) else acc)
      acc).1 = (acc.1 || cs.any q) := by
  induction cs with
  | nil => intro acc; simp
  | cons c t ih =>
    intro acc
    rw [List.foldl_cons]
    by_cases hc : q c = true
    · rw [if_pos hc]
      by_cases hb : acc.1 = true
      · rw [if_pos hb]
        rw [ih]
        simp [hb, hc]
      · rw [if_neg hb]
        rw [ih]
        simp [hc]
    · rw [if_neg hc]
      rw [ih]
      have hc2 : q c = false := Bool.not_eq_true _ |>.mp hc
      simp [hc2]

theorem inhibit_fold_snd_empty (q : String → Bool) (X : String) (hX : X ≠ "")
    (cs : List String) :
    ∀ (acc : Bool × String),
    ((cs.foldl
      (fun (acc : Bool × String) cid =>
        if q cid then (if acc.1 then (acc.1, acc.2 ++ X) else (true, acc.2)) else acc)
      acc).2 = ""
      ↔ (acc.2 = "" ∧ (cs.filter q).length ≤ (if acc.1 = true then 0 else 1))) := by
  induction cs with
  | nil => intro acc; simp
  | cons c t ih =>
    intro acc
    rw [List.foldl_cons]
    by_cases hc : q c = true
    · rw [if_pos hc]
      rw [List.filter_cons_of_pos hc, List.length_cons]
      by_cases hb : acc.1 = true
      · rw [if_pos hb]
        rw [ih]
        dsimp only
        rw [hb]
        simp only [if_true]
        constructor
        · rintro ⟨hme, _⟩
          exact absurd hme (append_right_ne _ X hX)
        · rintro ⟨_, hcount⟩
          omega
      · rw [if_neg hb]
        rw [ih]
        dsimp only
        have hb2 : acc.1 = false := Bool.not_eq_true _ |>.mp hb
        rw [hb2]
        simp only [if_true, Bool.false_eq_true, if_false]
        constructor
        · rintro ⟨hme, hcount⟩
          exact ⟨hme, by omega⟩
        · rintro ⟨hme, hcount⟩
          exact ⟨hme, by omega⟩
    · rw [if_neg hc]
      rw [ih]
      have hc2 : q c = false := Bool.not_eq_true _ |>.mp hc
      rw [List.filter_cons_of_neg (by simp [hc2])]

theorem inhibitScan_fst (flavors : List (String × String))
    (primary : List (String × PrimE)) (orig : String) (cs : List String) :
    (inhibitScan flavors primary orig cs).1 = cs.any (isCondChild flavors primary) := by
  have h := inhibit_fold_fst (isCondChild flavors primary)
    (orig ++ " : INHIBIT gate must have exactly one conditional event.\n") cs (false, "")
  simpa [inhibitScan] using h

theorem inhibitScan_snd_empty (flavors : List (String × String))
    (primary : List (String × PrimE)) (orig : String) (cs : List String) :
    ((inhibitScan flavors primary orig cs).2 = ""
      ↔ countCond flavors primary cs ≤ 1) := by
  have h := inhibit_fold_snd_empty (isCondChild flavors primary)
    (orig ++ " : INHIBIT gate must have exactly one conditional event.\n")
    (append_right_ne orig _ (by decide)) cs (false, "")
  simpa [inhibitScan, countCond] using h

theorem countCond_pos_of_any (flavors : List (String × String))
    (primary : List (String × PrimE)) (cs : List String)
    (h : cs.any (isCondChild flavors primary) = true) :
    1 ≤ countCond flavors primary cs := by
  rcases List.any_eq_true.mp h with ⟨x, hx, hpx⟩
  have hmem : x ∈ cs.filter (isCondChild flavors primary) :=
    List.mem_filter.mpr ⟨hx, hpx⟩
  have := List.length_pos.mpr (List.ne_nil_of_mem hmem)
  unfold countCond
  omega

theorem countCond_eq_zero_of_not_any (flavors : List (String × String))
    (primary : List (String × PrimE)) (cs : List String)
    (h : cs.any (isCondChild flavors primary) = false) :
    countCond flavors primary cs = 0 := by
  unfold countCond
  have hfil : cs.filter (isCondChild flavors primary) = [] := by
    rw [List.filter_eq_nil_iff]
    intro a ha
    rcases List.any_eq_false.mp h a ha with hfa
    simp [hfa]
  rw [hfil]
  rfl

theorem checkInhibitGate_empty_iff (flavors : List (String × String))
    (primary : List (String × PrimE)) (g : GateE) :
    RiskAnalysis.CheckInhibitGate flavors primary g = ""
      ↔ (g.children.length = 2 ∧ countCond flavors primary g.children = 1) := by
  unfold RiskAnalysis.CheckInhibitGate
  by_cases hlen : g.children.length ≠ 2
  · rw [if_pos hlen]
    constructor
    · intro h
      exact absurd h (append_right_ne _ _ (by decide))
    · rintro ⟨h2, _⟩
      exact absurd h2 hlen
  · have hlen2 : g.children.length = 2 := not_ne_iff.mp hlen
    rw [if_neg hlen]
    by_cases hany : g.children.any (isCondChild flavors primary) = true
    · rw [if_pos (by rw [inhibitScan_fst]; exact hany)]
      rw [inhibitScan_snd_empty]
      have hpos := countCond_pos_of_any flavors primary g.children hany
      constructor
      · intro hle
        exact ⟨hlen2, le_antisymm hle hpos⟩
      · rintro ⟨_, hc⟩
        omega
    · simp only [Bool.not_eq_true] at hany
      rw [if_neg (by rw [inhibitScan_fst]; simp [hany])]
      constructor
      · intro h
        exact absurd h
          (append_right_ne _ _ (append_right_ne _ _ (by decide)))
      · rintro ⟨_, hc⟩
        have h0 := countCond_eq_zero_of_not_any flavors primary g.children hany
        omega

/-- C3 counterexample: an ATLEAST gate with vote number 1 and two children
receives no diagnostic from `CheckGate`, although the claimed arity rule —
which demands a vote number `k ≥ 2` — is violated. -/
theorem CheckGate_atleast_vote_counterexample :
    RiskAnalysis.CheckGate [] [] "g0" atleastGateK1 = "" ∧
    GateArityOkClaim [] [] "g0" atleastGateK1 = false := by
  constructor
  · rfl
  · rfl

/-- C3 (amended): for every defined gate of a supported type, first-layer
validation produces a diagnostic if and only if the gate violates its arity
rule: AND/OR/NAND/NOR need at least 2 children, NOT/NULL exactly 1, XOR
exactly 2, INHIBIT exactly 2 children of which exactly one is a conditional
(a defined primary event with attribute flavor=conditional), and ATLEAST at
least one child and more children than its vote number — the claimed extra
condition `k ≥ 2` on the ATLEAST vote number is not checked by first-layer
validation. -/
theorem CheckGate_empty_iff_arity (flavors : List (String × String))
    (primary : List (String × PrimE)) (gid : String) (g : GateE)
    (hvalid : g.gtype ∈ validGateTypes) :
    RiskAnalysis.CheckGate flavors primary gid g = ""
      ↔ GateArityOkAmended flavors primary gid g = true := by
  have het : effectiveType flavors gid g ∈ validGateTypes := by
    unfold effectiveType
    split
    · decide
    · exact hvalid
  simp only [RiskAnalysis.CheckGate, GateArityOkAmended]
  by_cases hsize : g.children.length = 0
  · rw [if_pos hsize]
    constructor
    · intro h
      exact absurd h (append_right_ne _ _ (by decide))
    · intro h
      rw [hsize] at h
      simp at h
  · rw [if_neg hsize]
    by_cases h1 : effectiveType flavors gid g ∈ ["and", "or", "nand", "nor"]
    · rw [if_pos h1, if_pos h1]
      by_cases h2 : g.children.length < 2
      · rw [if_pos h2]
        constructor
        · intro h
          exact absurd h (append_right_ne _ _ (by decide))
        · intro h
          rw [decide_eq_true_eq] at h
          omega
      · rw [if_neg h2]
        have hge : (2 : Nat) ≤ g.children.length := by omega
        simp [hge]
    · rw [if_neg h1, if_neg h1]
      by_cases h3 : effectiveType flavors gid g ∈ ["null", "not"]
      · rw [if_pos h3, if_pos h3]
        by_cases h4 : g.children.length ≠ 1
        · rw [if_pos h4]
          constructor
          · intro h
            exact absurd h (append_right_ne _ _ (by decide))
          · intro h
            rw [beq_iff_eq] at h
            exact absurd h h4
        · rw [if_neg h4]
          have hone : g.children.length = 1 := not_ne_iff.mp h4
          simp [hone]
      · rw [if_neg h3, if_neg h3]
        by_cases h5 : effectiveType flavors gid g = "xor"
        · rw [if_pos h5, if_pos h5]
          by_cases h6 : g.children.length ≠ 2
          · rw [if_pos h6]
            constructor
            · intro h
              exact absurd h (append_right_ne _ _ (by decide))
            · intro h
              rw [beq_iff_eq] at h
              exact absurd h h6
          · rw [if_neg h6]
            have htwo : g.children.length = 2 := not_ne_iff.mp h6
            simp [htwo]
        · rw [if_neg h5, if_neg h5]
          by_cases h7 : effectiveType flavors gid g = "inhibit"
          · rw [if_pos h7, if_pos h7]
            rw [checkInhibitGate_empty_iff]
            constructor
            · rintro ⟨ha, hb⟩
              simp [ha, hb]
            · intro h
              simp only [Bool.and_eq_true, beq_iff_eq] at h
              exact h
          · rw [if_neg h7, if_neg h7]
            by_cases h8 : effectiveType flavors gid g = "atleast"
            · rw [if_pos h8, if_pos h8]
              by_cases h9 : (g.children.length : Int) ≤ g.vote
              · rw [if_pos h9]
                constructor
                · intro h
                  exact absurd h (append_right_ne _ _ (by decide))
                · intro h
                  simp only [Bool.and_eq_true, decide_eq_true_eq] at h
                  omega
              · rw [if_neg h9]
                have h10 : g.vote < (g.children.length : Int) := lt_of_not_le h9
                have h11 : 1 ≤ g.children.length := Nat.pos_of_ne_zero hsize
                simp [h10, h11]
            · rw [if_neg h8, if_neg h8]
              exact absurd het (fun hmem => by
                simp only [validGateTypes, List.mem_cons, List.mem_singleton] at hmem
                rcases hmem with h | h | h | h | h | h | h | h | h
                · exact h1 (by rw [h]; decide)
                · exact h1 (by rw [h]; decide)
                · exact h3 (by rw [h]; decide)
                · exact h1 (by rw [h]; decide)
                · exact h1 (by rw [h]; decide)
                · exact h5 h
                · exact h3 (by rw [h]; decide)
                · exact h7 h
                · rcases h with h | h
                  · exact h8 h
                  · cases h)

theorem CheckGate_empty_iff_arity_witness :
    ("and" ∈ validGateTypes) ∧
    (RiskAnalysis.CheckGate [] [] "ga" andGate2 = ""
      ↔ GateArityOkAmended [] [] "ga" andGate2 = true) :=
  ⟨by decide, CheckGate_empty_iff_arity [] [] "ga" andGate2 (by decide)⟩

/-! ## C7 and C8: identifier rules -/

theorem lookup_append_of_none {β : Type} (l1 l2 : List (String × β)) (k : String)
    (h : l1.lookup k = none) : (l1 ++ l2).lookup k = l2.lookup k := by
  induction l1 with
  | nil => rfl
  | cons p t ih =>
    rcases p with ⟨a, b⟩
    by_cases hk : k = a
    · subst hk
      simp [List.lookup] at h
    · have hb : (k == a) = false := by simp [hk]
      simp only [List.cons_append, List.lookup, hb] at h ⊢
      exact ih h

theorem lookup_singleton_pos {β : Type} (k : String) (v : β) :
    ([(k, v)] : List (String × β)).lookup k = some v := by
  simp [List.lookup]

/-- C7: identifier uniqueness for parameters is case-sensitive — two
parameter definitions with distinct spellings are both accepted, even when
they differ only in case — while gates, (basic) events, fault trees and CCF
groups are keyed by the lower-cased id, so a second definition whose spelling
folds to the same id is rejected as doubly defined, and the first
definition's original spelling is preserved for display. -/
theorem identifier_case_sensitivity :
    (∀ (s : RAState) (n m : String), n ∉ s.parameters → m ∉ s.parameters → n ≠ m →
      (RiskAnalysis.DefineParameter s n).1 = none ∧
      (RiskAnalysis.DefineParameter (RiskAnalysis.DefineParameter s n).2 m).1 = none) ∧
    (∀ (s : RAState) (orig orig2 gtype gtype2 : String) (vote vote2 : Int),
      s.gates.lookup (foldCase orig) = none →
      s.primary_events.lookup (foldCase orig) = none →
      s.tbd_basic_events.lookup (foldCase orig) = none →
      s.tbd_house_events.lookup (foldCase orig) = none →
      s.tbd_gates.lookup (foldCase orig) = none →
      s.tbd_events.lookup (foldCase orig) = none →
      gtype ∈ validGateTypes →
      foldCase orig2 = foldCase orig →
      (RiskAnalysis.DefineGate s orig gtype vote).1 = none ∧
      (∃ g, (RiskAnalysis.DefineGate s orig gtype vote).2.gates.lookup (foldCase orig)
          = some g ∧ g.origId = orig) ∧
      (RiskAnalysis.DefineGate (RiskAnalysis.DefineGate s orig gtype vote).2
          orig2 gtype2 vote2).1 = some (VErr.gateDoublyDefined orig2)) ∧
    (∀ (s : RAState) (orig orig2 : String),
      s.gates.lookup (foldCase orig) = none →
      s.tbd_gates.lookup (foldCase orig) = none →
      s.primary_events.lookup (foldCase orig) = none →
      s.tbd_house_events.lookup (foldCase orig) = none →
      s.tbd_basic_events.lookup (foldCase orig) = none →
      s.tbd_events.lookup (foldCase orig) = none →
      foldCase orig2 = foldCase orig →
      (RiskAnalysis.GetBasicEvent s orig).1 = none ∧
      (∃ p, (RiskAnalysis.GetBasicEvent s orig).2.primary_events.lookup (foldCase orig)
          = some p ∧ p.origId = orig) ∧
      (RiskAnalysis.GetBasicEvent (RiskAnalysis.GetBasicEvent s orig).2 orig2).1
        = some (VErr.doublyDefined orig2)) ∧
    (∀ (s : RAState) (name name2 : String),
      s.fault_trees.lookup (foldCase name) = none →
      foldCase name2 = foldCase name →
      (RiskAnalysis.DefineFaultTree s name).1 = none ∧
      (RiskAnalysis.DefineFaultTree s name).2.fault_trees.lookup (foldCase name)
        = some name ∧
      (RiskAnalysis.DefineFaultTree (RiskAnalysis.DefineFaultTree s name).2 name2).1
        = some (VErr.ftDoublyDefined name2)) ∧
    (∀ (s : RAState) (name name2 : String),
      s.ccf_groups.lookup (foldCase name) = none →
      foldCase name2 = foldCase name →
      (RiskAnalysis.DefineCcfGroup s name).1 = none ∧
      (RiskAnalysis.DefineCcfGroup s name).2.ccf_groups.lookup (foldCase name)
        = some name ∧
      (RiskAnalysis.DefineCcfGroup (RiskAnalysis.DefineCcfGroup s name).2 name2).1
        = some (VErr.ccfDoublyDefined name2)) := by
  refine ⟨?_, ?_, ?_, ?_, ?_⟩
  · intro s n m hn hm hnm
    have hgen : ∀ (s2 : RAState) (x : String), x ∉ s2.parameters →
        (RiskAnalysis.DefineParameter s2 x).1 = none := by
      intro s2 x hx
      unfold RiskAnalysis.DefineParameter
      rw [if_neg hx]
      split <;> rfl
    have hparams : (RiskAnalysis.DefineParameter s n).2.parameters
        = s.parameters ++ [n] := by
      unfold RiskAnalysis.DefineParameter
      rw [if_neg hn]
      split <;> rfl
    refine ⟨hgen s n hn, ?_⟩
    apply hgen
    rw [hparams]
    intro hmem
    rcases List.mem_append.mp hmem with h | h
    · exact hm h
    · exact hnm (List.mem_singleton.mp h).symm
  · intro s orig orig2 gtype gtype2 vote vote2 hg hp hb hh htg hte hty horig
    have hs1 : RiskAnalysis.DefineGate s orig gtype vote =
        (none, { s with gates := s.gates ++ [(foldCase orig,
          { origId := orig, gtype := gtype, vote := vote, children := [] })] }) := by
      unfold RiskAnalysis.DefineGate RiskAnalysis.UpdateIfLateEvent
      simp [hg, hp, hb, hh, htg, hte, hty]
    refine ⟨by rw [hs1], ?_, ?_⟩
    · rw [hs1]
      refine ⟨{ origId := orig, gtype := gtype, vote := vote, children := [] }, ?_, rfl⟩
      dsimp only
      rw [lookup_append_of_none _ _ _ hg, lookup_singleton_pos]
    · rw [hs1]
      unfold RiskAnalysis.DefineGate
      dsimp only
      rw [horig]
      rw [lookup_append_of_none _ _ _ hg, lookup_singleton_pos]
      rfl
  · intro s orig orig2 hg htg hp hh hb hte horig
    have hs1 : RiskAnalysis.GetBasicEvent s orig =
        (none, { s with
          primary_events := s.primary_events
            ++ [(foldCase orig, { origId := orig, kind := PKind.basic })]
          basic_events := s.basic_events ++ [(foldCase orig, orig)] }) := by
      unfold RiskAnalysis.GetBasicEvent RiskAnalysis.UpdateIfLateEvent
      simp [hg, htg, hp, hh, hb, hte]
    refine ⟨by rw [hs1], ?_, ?_⟩
    · rw [hs1]
      refine ⟨{ origId := orig, kind := PKind.basic }, ?_, rfl⟩
      dsimp only
      rw [lookup_append_of_none _ _ _ hp, lookup_singleton_pos]
    · rw [hs1]
      unfold RiskAnalysis.GetBasicEvent
      dsimp only
      rw [horig]
      rw [lookup_append_of_none _ _ _ hp, lookup_singleton_pos]
      simp [hg, htg]
  · intro s name name2 hf horig
    have hs1 : RiskAnalysis.DefineFaultTree s name =
        (none, { s with fault_trees := s.fault_trees ++ [(foldCase name, name)] }) := by
      unfold RiskAnalysis.DefineFaultTree
      simp [hf]
    refine ⟨by rw [hs1], ?_, ?_⟩
    · rw [hs1]
      dsimp only
      rw [lookup_append_of_none _ _ _ hf, lookup_singleton_pos]
    · rw [hs1]
      unfold RiskAnalysis.DefineFaultTree
      dsimp only
      rw [horig]
      rw [lookup_append_of_none _ _ _ hf, lookup_singleton_pos]
      rfl
  · intro s name name2 hf horig
    have hs1 : RiskAnalysis.DefineCcfGroup s name =
        (none, { s with ccf_groups := s.ccf_groups ++ [(foldCase name, name)]
                        prob_requested := true }) := by
      unfold RiskAnalysis.DefineCcfGroup
      simp [hf]
    refine ⟨by rw [hs1], ?_, ?_⟩
    · rw [hs1]
      dsimp only
      rw [lookup_append_of_none _ _ _ hf, lookup_singleton_pos]
    · rw [hs1]
      unfold RiskAnalysis.DefineCcfGroup
      dsimp only
      rw [horig]
      rw [lookup_append_of_none _ _ _ hf, lookup_singleton_pos]
      rfl

theorem identifier_case_sensitivity_witness :
    ((RiskAnalysis.DefineParameter emptyState "A").1 = none ∧
      (RiskAnalysis.DefineParameter
        (RiskAnalysis.DefineParameter emptyState "A").2 "a").1 = none) ∧
    (RiskAnalysis.DefineGate (RiskAnalysis.DefineGate emptyState "Gg" "and" (-1)).2
      "GG" "and" (-1)).1 = some (VErr.gateDoublyDefined "GG") := by
  obtain ⟨p1, p2, _⟩ := identifier_case_sensitivity
  refine ⟨p1 emptyState "A" "a" (by decide) (by decide) (by decide), ?_⟩
  exact (p2 emptyState "Gg" "GG" "and" "and" (-1) (-1)
    rfl rfl rfl rfl rfl rfl (by decide) (by decide)).2.2

/-- C8 counterexample: a basic-event definition whose id names an existing
(defined) house event is rejected with the duplicate-definition message "The
id ... is doubly defined", not with an identifier-conflict message, although
the existing entity is of a different kind. -/
theorem basic_vs_defined_house_counterexample :
    houseOnlyState.primary_events.lookup "h"
      = some { origId := "H", kind := PKind.house } ∧
    RiskAnalysis.GetBasicEvent houseOnlyState "h"
      = (some (VErr.doublyDefined "h"), houseOnlyState) ∧
    (VErr.doublyDefined "h").isConflict = false := by
  refine ⟨by decide, by decide, rfl⟩

/-- C8 (amended): defining an entity whose case-folded id is bound to a gate
— or, for a primary-event definition, to a merely-referenced (tbd) event of
the other primary kind — fails with an identifier-conflict error; defining an
entity whose id is already a defined primary event fails with a
duplicate-definition ("doubly defined") error whether the existing primary
event is of the same or of the other kind; a same-kind duplicate likewise
fails with a duplicate-definition error; in every failure the state is
returned unchanged. -/
theorem definition_clash_errors :
    (∀ (s : RAState) (orig : String),
      ((s.gates.lookup (foldCase orig)).isSome = true ∨
        (s.tbd_gates.lookup (foldCase orig)).isSome = true) →
      RiskAnalysis.GetBasicEvent s orig = (some (VErr.alreadyGate orig), s) ∧
      (VErr.alreadyGate orig).isConflict = true) ∧
    (∀ (s : RAState) (orig : String),
      (s.gates.lookup (foldCase orig)).isSome = false →
      (s.tbd_gates.lookup (foldCase orig)).isSome = false →
      (s.primary_events.lookup (foldCase orig)).isSome = true →
      RiskAnalysis.GetBasicEvent s orig = (some (VErr.doublyDefined orig), s) ∧
      (VErr.doublyDefined orig).isConflict = false) ∧
    (∀ (s : RAState) (orig : String),
      (s.gates.lookup (foldCase orig)).isSome = false →
      (s.tbd_gates.lookup (foldCase orig)).isSome = false →
      (s.primary_events.lookup (foldCase orig)).isSome = false →
      (s.tbd_house_events.lookup (foldCase orig)).isSome = true →
      RiskAnalysis.GetBasicEvent s orig = (some (VErr.usedByHouse orig), s) ∧
      (VErr.usedByHouse orig).isConflict = true) ∧
    (∀ (s : RAState) (orig : String),
      ((s.gates.lookup (foldCase orig)).isSome = true ∨
        (s.tbd_gates.lookup (foldCase orig)).isSome = true) →
      RiskAnalysis.DefineHouseEvent s orig = (some (VErr.alreadyGate orig), s) ∧
      (VErr.alreadyGate orig).isConflict = true) ∧
    (∀ (s : RAState) (orig : String),
      (s.gates.lookup (foldCase orig)).isSome = false →
      (s.tbd_gates.lookup (foldCase orig)).isSome = false →
      (s.primary_events.lookup (foldCase orig)).isSome = true →
      RiskAnalysis.DefineHouseEvent s orig = (some (VErr.doublyDefined orig), s) ∧
      (VErr.doublyDefined orig).isConflict = false) ∧
    (∀ (s : RAState) (orig : String),
      (s.gates.lookup (foldCase orig)).isSome = false →
      (s.tbd_gates.lookup (foldCase orig)).isSome = false →
      (s.primary_events.lookup (foldCase orig)).isSome = false →
      (s.tbd_basic_events.lookup (foldCase orig)).isSome = true →
      RiskAnalysis.DefineHouseEvent s orig = (some (VErr.usedByBasic orig), s) ∧
      (VErr.usedByBasic orig).isConflict = true) ∧
    (∀ (s : RAState) (orig gtype : String) (vote : Int),
      (s.gates.lookup (foldCase orig)).isSome = true →
      RiskAnalysis.DefineGate s orig gtype vote
        = (some (VErr.gateDoublyDefined orig), s) ∧
      (VErr.gateDoublyDefined orig).isConflict = false) ∧
    (∀ (s : RAState) (orig gtype : String) (vote : Int),
      (s.gates.lookup (foldCase orig)).isSome = false →
      ((s.primary_events.lookup (foldCase orig)).isSome = true ∨
        (s.tbd_basic_events.lookup (foldCase orig)).isSome = true ∨
        (s.tbd_house_events.lookup (foldCase orig)).isSome = true) →
      RiskAnalysis.DefineGate s orig gtype vote
        = (some (VErr.alreadyPrimary orig), s) ∧
      (VErr.alreadyPrimary orig).isConflict = true) ∧
    (∀ (s : RAState) (n : String), n ∈ s.parameters →
      RiskAnalysis.DefineParameter s n = (some (VErr.paramDoublyDefined n), s)) ∧
    (∀ (s : RAState) (n : String), (s.fault_trees.lookup (foldCase n)).isSome = true →
      RiskAnalysis.DefineFaultTree s n = (some (VErr.ftDoublyDefined n), s)) ∧
    (∀ (s : RAState) (n : String), (s.ccf_groups.lookup (foldCase n)).isSome = true →
      RiskAnalysis.DefineCcfGroup s n = (some (VErr.ccfDoublyDefined n), s)) := by
  refine ⟨?_, ?_, ?_, ?_, ?_, ?_, ?_, ?_, ?_, ?_, ?_⟩
  · intro s orig h
    have hcond : ((s.gates.lookup (foldCase orig)).isSome
        || (s.tbd_gates.lookup (foldCase orig)).isSome) = true := by
      rcases h with h | h <;> simp [h]
    exact ⟨by unfold RiskAnalysis.GetBasicEvent; rw [if_pos hcond], rfl⟩
  · intro s orig h1 h2 h3
    refine ⟨?_, rfl⟩
    unfold RiskAnalysis.GetBasicEvent
    rw [if_neg (by simp [h1, h2]), if_pos h3]
  · intro s orig h1 h2 h3 h4
    refine ⟨?_, rfl⟩
    unfold RiskAnalysis.GetBasicEvent
    rw [if_neg (by simp [h1, h2]), if_neg (by simp [h3]), if_pos h4]
  · intro s orig h
    have hcond : ((s.gates.lookup (foldCase orig)).isSome
        || (s.tbd_gates.lookup (foldCase orig)).isSome) = true := by
      rcases h with h | h <;> simp [h]
    exact ⟨by unfold RiskAnalysis.DefineHouseEvent; rw [if_pos hcond], rfl⟩
  · intro s orig h1 h2 h3
    refine ⟨?_, rfl⟩
    unfold RiskAnalysis.DefineHouseEvent
    rw [if_neg (by simp [h1, h2]), if_pos h3]
  · intro s orig h1 h2 h3 h4
    refine ⟨?_, rfl⟩
    unfold RiskAnalysis.DefineHouseEvent
    rw [if_neg (by simp [h1, h2]), if_neg (by simp [h3]), if_pos h4]
  · intro s orig gtype vote h
    refine ⟨?_, rfl⟩
    unfold RiskAnalysis.DefineGate
    rw [if_pos h]
  · intro s orig gtype vote h1 h2
    refine ⟨?_, rfl⟩
    have hcond : ((s.primary_events.lookup (foldCase orig)).isSome
        || (s.tbd_basic_events.lookup (foldCase orig)).isSome
        || (s.tbd_house_events.lookup (foldCase orig)).isSome) = true := by
      rcases h2 with h | h | h <;> simp [h]
    unfold RiskAnalysis.DefineGate
    rw [if_neg (by simp [h1]), if_pos hcond]
  · intro s n h
    unfold RiskAnalysis.DefineParameter
    rw [if_pos h]
  · intro s n h
    unfold RiskAnalysis.DefineFaultTree
    rw [if_pos h]
  · intro s n h
    unfold RiskAnalysis.DefineCcfGroup
    rw [if_pos h]

theorem definition_clash_errors_witness :
    (RiskAnalysis.GetBasicEvent gateOnlyState "G"
        = (some (VErr.alreadyGate "G"), gateOnlyState) ∧
      (VErr.alreadyGate "G").isConflict = true) ∧
    (RiskAnalysis.GetBasicEvent tbdHouseState "h"
        = (some (VErr.usedByHouse "h"), tbdHouseState) ∧
      (VErr.usedByHouse "h").isConflict = true) := by
  obtain ⟨p1, p2, p3, _⟩ := definition_clash_errors
  exact ⟨p1 gateOnlyState "G" (Or.inl (by decide)),
    p3 tbdHouseState "h" (by decide) (by decide) (by decide) (by decide)⟩

end Scram
